import Mathlib

/-!
Shallow embedding of the decoder-only transformer building blocks from
`src/keras/gpt.py`, together with theorems checking the natural-language
specification against the code.  Tensors are modelled as `Fin`-indexed
real-valued functions carrying their shape; floating-point arithmetic is
idealised as exact real arithmetic.  The keras masked `Softmax` (which adds
a large negative constant to masked logits, making their `exp` underflow to
exactly 0 in float32) is modelled exactly as the softmax restricted to the
unmasked entries, with masked entries equal to 0.
-/

namespace GPT

/-- Rank-3 tensor of shape (B, T, C): a batch of T-step sequences of
C-dimensional real vectors. -/
structure Tensor3 where
  B : ℕ
  T : ℕ
  C : ℕ
  val : Fin B → Fin T → Fin C → ℝ

/-- Shape of a rank-3 tensor, as the triple (batch, time, channels). -/
def Tensor3.shape (x : Tensor3) : ℕ × ℕ × ℕ := (x.B, x.T, x.C)

/-- Total accessor for a rank-3 tensor: out-of-range indices read 0.  Only
in-range indices are ever produced by the broadcasting rules below. -/
def Tensor3.entry (x : Tensor3) (b t c : ℕ) : ℝ :=
  if hb : b < x.B then
    if ht : t < x.T then
      if hc : c < x.C then x.val ⟨b, hb⟩ ⟨t, ht⟩ ⟨c, hc⟩ else 0
    else 0
  else 0

/-- Rank-2 tensor of shape (T, C), used for the position-embedding matrix. -/
structure Tensor2 where
  T : ℕ
  C : ℕ
  val : Fin T → Fin C → ℝ

/-- Total accessor for a rank-2 tensor: out-of-range indices read 0. -/
def Tensor2.entry (p : Tensor2) (t c : ℕ) : ℝ :=
  if ht : t < p.T then
    if hc : c < p.C then p.val ⟨t, ht⟩ ⟨c, hc⟩ else 0
  else 0

/-- Batch of integer token indices, shape (B, T). -/
structure ITensor2 where
  B : ℕ
  T : ℕ
  val : Fin B → Fin T → ℕ

/-- Broadcast of one dimension against another, following the numpy and
TensorFlow rule: the sizes must be equal, or one of them must be 1. -/
def bdim (a b : ℕ) : Option ℕ :=
  if a = b then some a else if a = 1 then some b else if b = 1 then some a else none

/-- Index selection under broadcasting: a dimension of size 1 is always read
at index 0, any other dimension is read at the given index. -/
def pick (a i : ℕ) : ℕ := if a = 1 then 0 else i

/-- Elementwise addition of two rank-3 tensors with numpy and TensorFlow
broadcasting on every dimension; `none` models the fatal shape error raised
when a pair of dimensions is incompatible. -/
def addT (x y : Tensor3) : Option Tensor3 :=
  (bdim x.B y.B).bind fun Bo =>
    (bdim x.T y.T).bind fun To =>
      (bdim x.C y.C).map fun Co =>
        ⟨Bo, To, Co, fun b t c =>
          x.entry (pick x.B b) (pick x.T t) (pick x.C c) +
            y.entry (pick y.B b) (pick y.T t) (pick y.C c)⟩

/-- Addition of a rank-3 tensor and a rank-2 tensor with broadcasting: the
rank-2 operand is treated as having an implicit leading batch dimension of
size 1, exactly as TensorFlow aligns trailing dimensions. -/
def add32 (x : Tensor3) (p : Tensor2) : Option Tensor3 :=
  (bdim x.T p.T).bind fun To =>
    (bdim x.C p.C).map fun Co =>
      ⟨x.B, To, Co, fun b t c =>
        x.entry b (pick x.T t) (pick x.C c) + p.entry (pick p.T t) (pick p.C c)⟩

/-- Pointwise effect of `keras.layers.Dropout` on one value: at rate 0 or in
inference mode the layer is the identity; otherwise kept entries are rescaled
by 1/(1-rate) and dropped entries become 0.  The Bernoulli draw is supplied
externally as the boolean `kp`. -/
noncomputable def dropVal (rate : ℝ) (training : Bool) (kp : Bool) (v : ℝ) : ℝ :=
  if training = true ∧ rate ≠ 0 then (if kp then v / (1 - rate) else 0) else v

/-- Dropout applied elementwise to a rank-3 tensor; `keep` supplies the
Bernoulli draws by index. -/
noncomputable def dropT (rate : ℝ) (training : Bool) (keep : ℕ → ℕ → ℕ → Bool)
    (x : Tensor3) : Tensor3 :=
  ⟨x.B, x.T, x.C, fun b t c => dropVal rate training (keep b t c) (x.val b t c)⟩

/-- Rectified linear activation. -/
def relu (r : ℝ) : ℝ := max r 0

/-- Dense layer with no bias (as used for the key, query and value maps of
`Head`): a learned linear map on the channel axis, weights `W c u`. -/
noncomputable def denseT (units : ℕ) (W : ℕ → ℕ → ℝ) (x : Tensor3) : Tensor3 :=
  ⟨x.B, x.T, units, fun b t u => ∑ c : Fin x.C, x.val b t c * W c u⟩

/-- Dense layer with bias and activation.  A `Conv1D` with kernel size 1 is
exactly this per-position affine map on the channel axis. -/
noncomputable def denseBT (units : ℕ) (W : ℕ → ℕ → ℝ) (bias : ℕ → ℝ) (act : ℝ → ℝ)
    (x : Tensor3) : Tensor3 :=
  ⟨x.B, x.T, units, fun b t u => act (bias u + ∑ c : Fin x.C, x.val b t c * W c u)⟩

/-- Keras `LayerNormalization`: per batch element and time step, normalise
over the channel axis to zero mean and unit variance (stabilised by `eps`),
then apply the learned affine scale `g` and shift `sh`. -/
noncomputable def layerNormT (eps : ℝ) (g sh : ℕ → ℝ) (x : Tensor3) : Tensor3 :=
  ⟨x.B, x.T, x.C, fun b t c =>
    g c * ((x.val b t c - (∑ d : Fin x.C, x.val b t d) / x.C) /
      Real.sqrt ((∑ d : Fin x.C, (x.val b t d - (∑ e : Fin x.C, x.val b t e) / x.C) ^ 2) / x.C + eps)) + sh c⟩

/-- Module-level global channel count: the script ends with
`B, T, C = 32, 8, 5`, and `Head.call` reads the outer-scope variable `C`
(not an attribute of the head) when scaling the attention scores. -/
def gC : ℕ := 5

/-- Configuration of an `AttentionHead`, from `Head.__init__(head_size,
seq_len, dropout)`. -/
structure HeadCfg where
  head_size : ℕ
  seq_len : ℕ
  dropout : ℝ

/-- Learned parameters of one `AttentionHead`: the key, query and value
projections, each a bias-free dense map, given as weight supplies indexed by
(input channel, output unit). -/
structure HeadParams where
  Wk : ℕ → ℕ → ℝ
  Wq : ℕ → ℕ → ℝ
  Wv : ℕ → ℕ → ℝ

/-- Raw affinity scores of `Head.call`: `wei = q @ transpose(k)`, entry
(i, j) of the (B, T, T) score tensor. -/
noncomputable def headScores (H : ℕ) (P : HeadParams) (x : Tensor3)
    (b : Fin x.B) (i j : Fin x.T) : ℝ :=
  ∑ d : Fin H, (denseT H P.Wq x).val b i d * (denseT H P.Wk x).val b j d

/-- Scaled scores of `Head.call`: the line `wei /= math.sqrt(C)` divides by
the square root of the module-level global `C` (see `gC`), whatever the
configured head size is. -/
noncomputable def headScaled (H : ℕ) (P : HeadParams) (x : Tensor3)
    (b : Fin x.B) (i j : Fin x.T) : ℝ :=
  headScores H P x b i j / Real.sqrt gC

/-- Scaled scores as the specification words them: divide the raw scores by
the square root of the head size of this head.  Kept only to compare with
`headScaled`, which is the translation of the source. -/
noncomputable def headScaledSpec (H : ℕ) (P : HeadParams) (x : Tensor3)
    (b : Fin x.B) (i j : Fin x.T) : ℝ :=
  headScores H P x b i j / Real.sqrt H

/-- Attention weights of `Head.call` after the masked softmax
`layers.Softmax(axis=-1)(wei, self.mask)` with the lower-triangular mask
`np.tril(ones((seq_len, seq_len)))`: positions with `j > i` are masked out
(weight exactly 0), the remaining row entries are the softmax of the scaled
scores over the allowed positions `j <= i`. -/
noncomputable def headWei (H : ℕ) (P : HeadParams) (x : Tensor3)
    (b : Fin x.B) (i j : Fin x.T) : ℝ :=
  if j.val ≤ i.val then
    Real.exp (headScaled H P x b i j) /
      ∑ k in Finset.univ.filter (fun k : Fin x.T => k.val ≤ i.val),
        Real.exp (headScaled H P x b i k)
  else 0

/-- Body of `Head.call` once the shapes are known to agree: dropout is
applied to the attention weights, then the weighted aggregation of the
values `out = wei @ v` is returned, shape (B, T, head_size). -/
noncomputable def headBody (cfg : HeadCfg) (P : HeadParams) (training : Bool)
    (keep : ℕ → ℕ → ℕ → Bool) (x : Tensor3) : Tensor3 :=
  ⟨x.B, x.T, cfg.head_size, fun b i d =>
    ∑ j : Fin x.T,
      dropVal cfg.dropout training (keep b i j)
        (headWei cfg.head_size P x b i j) *
      (denseT cfg.head_size P.Wv x).val b j d⟩

/-- Full `Head.call`: the (seq_len, seq_len) mask only broadcasts against
the (B, T, T) score tensor when `T = seq_len`; any other length is a fatal
shape error, modelled as `none`. -/
noncomputable def headCallT (cfg : HeadCfg) (P : HeadParams) (training : Bool)
    (keep : ℕ → ℕ → ℕ → Bool) (x : Tensor3) : Option Tensor3 :=
  if x.T = cfg.seq_len then some (headBody cfg P training keep x) else none

/-- Learned parameters of `keras.layers.MultiHeadAttention` as configured by
`multi_head_self_attention_layer`: per-head query, key and value projections
with biases (indexed by head, input channel, unit), and the output einsum
with kernel indexed by (head, value unit, output channel) plus bias. -/
structure MHAParams where
  Wq : ℕ → ℕ → ℕ → ℝ
  Wk : ℕ → ℕ → ℕ → ℝ
  Wv : ℕ → ℕ → ℕ → ℝ
  bq : ℕ → ℕ → ℝ
  bk : ℕ → ℕ → ℝ
  bv : ℕ → ℕ → ℝ
  Wo : ℕ → ℕ → ℕ → ℝ
  bo : ℕ → ℝ

/-- Query projection of head `h` inside `MultiHeadAttention`. -/
noncomputable def mhaQ (P : MHAParams) (h : ℕ) (x : Tensor3)
    (b : Fin x.B) (t : Fin x.T) (d : ℕ) : ℝ :=
  P.bq h d + ∑ c : Fin x.C, x.val b t c * P.Wq h c d

/-- Key projection of head `h` inside `MultiHeadAttention`. -/
noncomputable def mhaK (P : MHAParams) (h : ℕ) (x : Tensor3)
    (b : Fin x.B) (t : Fin x.T) (d : ℕ) : ℝ :=
  P.bk h d + ∑ c : Fin x.C, x.val b t c * P.Wk h c d

/-- Value projection of head `h` inside `MultiHeadAttention`. -/
noncomputable def mhaV (P : MHAParams) (h : ℕ) (x : Tensor3)
    (b : Fin x.B) (t : Fin x.T) (d : ℕ) : ℝ :=
  P.bv h d + ∑ c : Fin x.C, x.val b t c * P.Wv h c d

/-- Attention scores of head `h` inside `MultiHeadAttention`: query times
key, scaled by the reciprocal square root of `key_dim` (= the head size). -/
noncomputable def mhaScores (H : ℕ) (P : MHAParams) (h : ℕ) (x : Tensor3)
    (b : Fin x.B) (i j : Fin x.T) : ℝ :=
  (∑ d : Fin H, mhaQ P h x b i d * mhaK P h x b j d) / Real.sqrt H

/-- Attention weights of head `h` inside `MultiHeadAttention` as called by
`multi_head_self_attention_layer`: the call passes `attention_mask=None`, so
the softmax runs over ALL positions with no causal restriction. -/
noncomputable def mhaWei (H : ℕ) (P : MHAParams) (h : ℕ) (x : Tensor3)
    (b : Fin x.B) (i j : Fin x.T) : ℝ :=
  Real.exp (mhaScores H P h x b i j) /
    ∑ k : Fin x.T, Real.exp (mhaScores H P h x b i k)

/-- Full `MultiHeadAttention` call on query = key = value = x: per head,
dropout is applied to the softmaxed weights, values are aggregated, and the
head outputs are combined by the output einsum into `numHeads * H` channels
(the configured `output_shape`). -/
noncomputable def mhaCallT (numHeads H : ℕ) (rate : ℝ) (P : MHAParams)
    (training : Bool) (keep : ℕ → ℕ → ℕ → ℕ → Bool) (x : Tensor3) : Tensor3 :=
  ⟨x.B, x.T, numHeads * H, fun b t o =>
    P.bo o + ∑ h : Fin numHeads, ∑ d : Fin H,
      (∑ j : Fin x.T,
        dropVal rate training (keep h b t j) (mhaWei H P h x b t j) *
          mhaV P h x b j d) * P.Wo h d o⟩

/-- Default dropout rate of `multi_head_self_attention_layer(num_heads,
head_size, dropout=0.)`: the default argument is 0. -/
def mhaLayerDefaultRate : ℝ := 0

/-- Learned parameters of `FeedForward.net`: the leading layer
normalisation, the two kernel-size-1 convolutions (each a per-position
affine map) and nothing for the final dropout. -/
structure FFParams where
  lnG : ℕ → ℝ
  lnB : ℕ → ℝ
  K1 : ℕ → ℕ → ℝ
  b1 : ℕ → ℝ
  K2 : ℕ → ℕ → ℝ
  b2 : ℕ → ℝ

/-- Hidden tensor of `FeedForward.net`: the input is layer-normalised
(epsilon 1e-6) and then passed through `Conv1D(filters=4, kernel_size=1,
activation=relu)` — the hidden channel width is the literal 4. -/
noncomputable def ffwdHidden (P : FFParams) (x : Tensor3) : Tensor3 :=
  denseBT 4 P.K1 P.b1 relu (layerNormT (1e-6) P.lnG P.lnB x)

/-- Full `FeedForward.call`: hidden tensor, then `Conv1D(filters=n_embd,
kernel_size=1)` with no activation, then dropout. -/
noncomputable def ffwdT (n_embd : ℕ) (rate : ℝ) (P : FFParams) (training : Bool)
    (keep : ℕ → ℕ → ℕ → Bool) (x : Tensor3) : Tensor3 :=
  dropT rate training keep (denseBT n_embd P.K2 P.b2 id (ffwdHidden P x))

/-- Configuration of a `Block` after a successful `Block.__init__`. -/
structure BlockCfg where
  n_embd : ℕ
  n_head : ℕ
  head_size : ℕ
  dropout : ℝ

/-- Construction of a `Block`: `assert n_embd % n_head == 0` fails the
construction when the embedding width is not divisible by the head count
(and `n_head = 0` raises a ZeroDivisionError at the `%` itself); on success
`head_size = n_embd // n_head` is stored. -/
noncomputable def blockInit (n_embd n_head : ℕ) (dropout : ℝ) : Option BlockCfg :=
  if n_head = 0 then none
  else if n_embd % n_head = 0 then
    some ⟨n_embd, n_head, n_embd / n_head, dropout⟩
  else none

/-- Learned parameters of one `Block`: the attention sublayer, the
feed-forward sublayer and the two independent layer normalisations. -/
structure BlockParams where
  sa : MHAParams
  ff : FFParams
  g1 : ℕ → ℝ
  b1 : ℕ → ℝ
  g2 : ℕ → ℝ
  b2 : ℕ → ℝ

/-- Attention sublayer built by `Block.build`: it calls
`multi_head_self_attention_layer(head_size=self.head_size,
num_heads=self.n_head)` WITHOUT forwarding the dropout rate of the block,
so the default rate `mhaLayerDefaultRate` is used. -/
noncomputable def blockSaT (cfg : BlockCfg) (P : MHAParams) (training : Bool)
    (keep : ℕ → ℕ → ℕ → ℕ → Bool) (x : Tensor3) : Tensor3 :=
  mhaCallT cfg.n_head cfg.head_size mhaLayerDefaultRate P training keep x

/-- Full `Block.call`: `x = x + sa(ln1(x))` then `x = x + ffwd(ln2(x))`,
with the residual additions subject to the broadcasting rules (a shape
mismatch is a fatal error, modelled by `none`). -/
noncomputable def blockCallT (cfg : BlockCfg) (P : BlockParams) (training : Bool)
    (keepA : ℕ → ℕ → ℕ → ℕ → Bool) (keepF : ℕ → ℕ → ℕ → Bool)
    (x : Tensor3) : Option Tensor3 :=
  (addT x (blockSaT cfg P.sa training keepA (layerNormT (1e-5) P.g1 P.b1 x))).bind
    fun x1 =>
      addT x1 (ffwdT cfg.n_embd cfg.dropout P.ff training keepF
        (layerNormT (1e-5) P.g2 P.b2 x1))

/-- Configuration of `TransformerLayer`; `block_size` is the sequence length
captured from `input_shape[1]` by `TransformerLayer.build` on first use. -/
structure TLCfg where
  vocab_size : ℕ
  n_embd : ℕ
  n_head : ℕ
  n_block : ℕ
  dropout : ℝ
  block_size : ℕ

/-- Configuration of the blocks built by `TransformerLayer.build`:
`Block(n_embd, n_head, dropout)`, hence `head_size = n_embd // n_head`. -/
def tlBlockCfg (cfg : TLCfg) : BlockCfg :=
  ⟨cfg.n_embd, cfg.n_head, cfg.n_embd / cfg.n_head, cfg.dropout⟩

/-- Learned parameters of `TransformerLayer`: the two embedding tables, the
parameters of every block, the final layer normalisation and the language
modelling head (a dense map to `vocab_size` with bias, no activation). -/
structure TLParams where
  tok : ℕ → ℕ → ℝ
  pos : ℕ → ℕ → ℝ
  blocks : ℕ → BlockParams
  gF : ℕ → ℝ
  bF : ℕ → ℝ
  Wlm : ℕ → ℕ → ℝ
  blm : ℕ → ℝ

/-- Token embeddings `self.token_embedding_table(idx)`, shape (B, T, n_embd). -/
noncomputable def tokEmbT (cfg : TLCfg) (P : TLParams) (idx : ITensor2) : Tensor3 :=
  ⟨idx.B, idx.T, cfg.n_embd, fun b t c => P.tok (idx.val b t) c⟩

/-- Position embeddings `self.position_embedding_table(tf.range(0,
self.block_size))`: one row for every position 0 .. block_size - 1, shape
(block_size, n_embd). -/
noncomputable def posEmbT (cfg : TLCfg) (P : TLParams) : Tensor2 :=
  ⟨cfg.block_size, cfg.n_embd, fun t c => P.pos t.val c.val⟩

/-- Sequential stack of `n` blocks, each output feeding the next input; any
shape failure aborts the whole call. -/
noncomputable def runBlocks (cfg : BlockCfg) (Ps : ℕ → BlockParams) (training : Bool)
    (kA : ℕ → ℕ → ℕ → ℕ → ℕ → Bool) (kF : ℕ → ℕ → ℕ → ℕ → Bool) :
    ℕ → Tensor3 → Option Tensor3
  | 0, x => some x
  | n + 1, x =>
      (blockCallT cfg (Ps n) training (kA n) (kF n) x).bind
        (runBlocks cfg Ps training kA kF n)

/-- Full `TransformerLayer.call`: token embeddings plus position embeddings
(broadcast across the batch), the stack of blocks, the final layer
normalisation, and the language modelling head producing raw logits with no
softmax. -/
noncomputable def transformerCallT (cfg : TLCfg) (P : TLParams) (training : Bool)
    (kA : ℕ → ℕ → ℕ → ℕ → ℕ → Bool) (kF : ℕ → ℕ → ℕ → ℕ → Bool)
    (idx : ITensor2) : Option Tensor3 :=
  (add32 (tokEmbT cfg P idx) (posEmbT cfg P)).bind fun x0 =>
    (runBlocks (tlBlockCfg cfg) P.blocks training kA kF cfg.n_block x0).map fun z =>
      denseBT cfg.vocab_size P.Wlm P.blm id (layerNormT (1e-5) P.gF P.bF z)

lemma dropVal_zero (tr kp : Bool) (v : ℝ) : dropVal 0 tr kp v = v := by
  simp [dropVal]

lemma bdim_self (a : ℕ) : bdim a a = some a := by
  simp [bdim]

lemma pick_eq_of_lt {a i : ℕ} (h : i < a) : pick a i = i := by
  unfold pick
  split
  · omega
  · rfl

lemma addT_some_of_shape (x y : Tensor3) (hB : y.B = x.B) (hT : y.T = x.T)
    (hC : y.C = x.C) :
    ∃ z, addT x y = some z ∧ z.B = x.B ∧ z.T = x.T ∧ z.C = x.C := by
  unfold addT
  rw [hB, hT, hC, bdim_self, bdim_self, bdim_self]
  exact ⟨_, rfl, rfl, rfl, rfl⟩

lemma mhaCallT_rate_zero_noise (n H : ℕ) (P : MHAParams) (tr : Bool)
    (k1 k2 : ℕ → ℕ → ℕ → ℕ → Bool) (x : Tensor3) :
    mhaCallT n H 0 P tr k1 x = mhaCallT n H 0 P tr k2 x := by
  unfold mhaCallT
  simp [dropVal]

lemma blockSaT_noise (cfg : BlockCfg) (P : MHAParams) (tr : Bool)
    (k1 k2 : ℕ → ℕ → ℕ → ℕ → Bool) (x : Tensor3) :
    blockSaT cfg P tr k1 x = blockSaT cfg P tr k2 x := by
  unfold blockSaT mhaLayerDefaultRate
  exact mhaCallT_rate_zero_noise _ _ _ _ _ _ _

/-- Zero-valued head parameters, used as a concrete instantiation. -/
abbrev P0H : HeadParams := ⟨fun _ _ => 0, fun _ _ => 0, fun _ _ => 0⟩

/-- Concrete all-zero input of shape (1, 2, 1). -/
abbrev xW : Tensor3 := ⟨1, 2, 1, fun _ _ _ => 0⟩

/-- Concrete all-zero input of shape (1, 2, 5), matching the channel count
of the script. -/
abbrev xW5 : Tensor3 := ⟨1, 2, 5, fun _ _ _ => 0⟩

/-- Concrete keep-everything dropout draw. -/
abbrev keep3 : ℕ → ℕ → ℕ → Bool := fun _ _ _ => true

/-- C7: constructing a `Block` with an embedding width not divisible by the
head count (for example 5 and 2) fails at construction, and whenever the
head count is positive and divides the embedding width, construction
succeeds with `head_size = n_embd / n_head`. -/
theorem c7_block_init_divisibility :
    blockInit 5 2 0 = none ∧
    ∀ (e h : ℕ) (d : ℝ), 0 < h →
      ((h ∣ e → ∃ cfg, blockInit e h d = some cfg ∧ cfg.n_embd = e ∧
          cfg.n_head = h ∧ cfg.head_size = e / h) ∧
       (¬ h ∣ e → blockInit e h d = none)) := by
  constructor
  · norm_num [blockInit]
  · intro e h d hh
    constructor
    · intro hdvd
      refine ⟨⟨e, h, e / h, d⟩, ?_, rfl, rfl, rfl⟩
      obtain ⟨c, rfl⟩ := hdvd
      simp [blockInit, hh.ne', Nat.mul_mod_right]
    · intro hdvd
      have hmod : e % h ≠ 0 := fun hm => hdvd (Nat.dvd_of_mod_eq_zero hm)
      simp [blockInit, hh.ne', hmod]

/-- Witness for C7 at the concrete configuration n_embd = 6, n_head = 2. -/
theorem c7_block_init_divisibility_witness :
    0 < 2 ∧ (2 ∣ 6) ∧
    ∃ cfg, blockInit 6 2 0 = some cfg ∧ cfg.n_embd = 6 ∧
      cfg.n_head = 2 ∧ cfg.head_size = 6 / 2 :=
  ⟨by norm_num, by norm_num,
    ((c7_block_init_divisibility.2 6 2 0 (by norm_num)).1 (by norm_num))⟩

/-- C10: `Block.build` does not forward the dropout rate of the block to
`multi_head_self_attention_layer`, so the attention sublayer runs at the
default rate 0; consequently the attention sublayer ignores its dropout
draws, and the whole block output does not depend on the attention dropout
draws, in training mode as well. -/
theorem c10_block_attention_dropout_default :
    mhaLayerDefaultRate = 0 ∧
    (∀ (cfg : BlockCfg) (P : MHAParams) (tr : Bool)
      (k1 k2 : ℕ → ℕ → ℕ → ℕ → Bool) (x : Tensor3),
        blockSaT cfg P tr k1 x = blockSaT cfg P tr k2 x) ∧
    (∀ (cfg : BlockCfg) (P : BlockParams) (tr : Bool)
      (kA1 kA2 : ℕ → ℕ → ℕ → ℕ → Bool) (kF : ℕ → ℕ → ℕ → Bool) (x : Tensor3),
        blockCallT cfg P tr kA1 kF x = blockCallT cfg P tr kA2 kF x) := by
  refine ⟨rfl, fun cfg P tr k1 k2 x => blockSaT_noise cfg P tr k1 k2 x, ?_⟩
  intro cfg P tr kA1 kA2 kF x
  unfold blockCallT
  rw [blockSaT_noise cfg P.sa tr kA1 kA2 (layerNormT (1e-5) P.g1 P.b1 x)]

/-- C8: whenever the input sequence length matches the configured mask
size, `Head.call` succeeds and its output shape is exactly
(B, T, head_size); in particular the final shape assertion of `Head.call`
holds. -/
theorem c8_head_output_shape (cfg : HeadCfg) (P : HeadParams) (tr : Bool)
    (keep : ℕ → ℕ → ℕ → Bool) (x : Tensor3) (hT : x.T = cfg.seq_len) :
    headCallT cfg P tr keep x = some (headBody cfg P tr keep x) ∧
    (headBody cfg P tr keep x).shape = (x.B, x.T, cfg.head_size) ∧
    (headBody cfg P tr keep x).T = cfg.seq_len ∧
    (headBody cfg P tr keep x).C = cfg.head_size :=
  ⟨by simp [headCallT, hT], rfl, hT, rfl⟩

/-- Witness for C8 at head size 3, sequence length 2, on a concrete
(1, 2, 5) input. -/
theorem c8_head_output_shape_witness :
    xW5.T = (⟨3, 2, 0⟩ : HeadCfg).seq_len ∧
    (headCallT ⟨3, 2, 0⟩ P0H false keep3 xW5 =
      some (headBody ⟨3, 2, 0⟩ P0H false keep3 xW5) ∧
     (headBody ⟨3, 2, 0⟩ P0H false keep3 xW5).shape = (xW5.B, xW5.T, 3) ∧
     (headBody ⟨3, 2, 0⟩ P0H false keep3 xW5).T = (⟨3, 2, 0⟩ : HeadCfg).seq_len ∧
     (headBody ⟨3, 2, 0⟩ P0H false keep3 xW5).C = 3) :=
  ⟨rfl, c8_head_output_shape ⟨3, 2, 0⟩ P0H false keep3 xW5 rfl⟩

/-- C4: for every row i of the attention-weight tensor of `AttentionHead`
(after the masked softmax, with dropout at rate 0), the entries at the
future positions j > i are exactly 0, and the entries over the allowed
positions j ≤ i sum to exactly 1. -/
theorem c4_head_weights_row_stochastic (H : ℕ) (P : HeadParams) (x : Tensor3)
    (tr : Bool) (keep : ℕ → ℕ → ℕ → Bool) (b : Fin x.B) (i : Fin x.T) :
    (∀ j : Fin x.T, i < j →
      dropVal 0 tr (keep b i j) (headWei H P x b i j) = 0) ∧
    (∑ j in Finset.univ.filter (fun j : Fin x.T => j.val ≤ i.val),
      headWei H P x b i j) = 1 := by
  constructor
  · intro j hij
    rw [dropVal_zero]
    unfold headWei
    rw [if_neg]
    exact Nat.not_le.mpr (Fin.lt_def.mp hij)
  · have hpos : (0:ℝ) <
        ∑ k in Finset.univ.filter (fun k : Fin x.T => k.val ≤ i.val),
          Real.exp (headScaled H P x b i k) := by
      apply Finset.sum_pos
      · intro k _
        exact Real.exp_pos _
      · exact ⟨i, by simp⟩
    unfold headWei
    rw [Finset.sum_congr rfl
      (fun j hj => if_pos (Finset.mem_filter.mp hj).2)]
    rw [← Finset.sum_div]
    exact div_self (ne_of_gt hpos)

/-- Witness for C4 on a concrete (1, 2, 1) input at row 0: the future entry
at column 1 is 0 and the allowed entries sum to 1. -/
theorem c4_head_weights_row_stochastic_witness :
    ((0 : Fin 2) < (1 : Fin 2) ∧
      dropVal 0 false (keep3 0 0 1) (headWei 1 P0H xW 0 0 1) = 0) ∧
    (∑ j in Finset.univ.filter (fun j : Fin 2 => j.val ≤ (0 : Fin 2).val),
      headWei 1 P0H xW 0 0 j) = 1 :=
  ⟨⟨by decide,
    (c4_head_weights_row_stochastic 1 P0H xW false keep3 0 0).1 1 (by decide)⟩,
   (c4_head_weights_row_stochastic 1 P0H xW false keep3 0 0).2⟩

lemma denseT_val_congr (u : ℕ) (W : ℕ → ℕ → ℝ) {B T C : ℕ}
    (f g : Fin B → Fin T → Fin C → ℝ) (b : Fin B) (t : Fin T)
    (h : ∀ c, f b t c = g b t c) (d : Fin u) :
    (denseT u W ⟨B, T, C, f⟩).val b t d = (denseT u W ⟨B, T, C, g⟩).val b t d := by
  simp only [denseT]
  exact Finset.sum_congr rfl fun c _ => by rw [h c]

lemma headScaled_congr (H : ℕ) (P : HeadParams) {B T C : ℕ}
    (f g : Fin B → Fin T → Fin C → ℝ) (b : Fin B) (i t : Fin T)
    (hqi : ∀ c, f b i c = g b i c) (hkt : ∀ c, f b t c = g b t c) :
    headScaled H P ⟨B, T, C, f⟩ b i t = headScaled H P ⟨B, T, C, g⟩ b i t := by
  unfold headScaled headScores
  rw [Finset.sum_congr rfl fun d _ => by
    rw [denseT_val_congr H P.Wq f g b i hqi d, denseT_val_congr H P.Wk f g b t hkt d]]

lemma headWei_congr (H : ℕ) (P : HeadParams) {B T C : ℕ}
    (f g : Fin B → Fin T → Fin C → ℝ) (b : Fin B) (i : Fin T)
    (hrow : ∀ t : Fin T, t.val ≤ i.val → ∀ c, f b t c = g b t c) (t : Fin T) :
    headWei H P ⟨B, T, C, f⟩ b i t = headWei H P ⟨B, T, C, g⟩ b i t := by
  have hi : ∀ c, f b i c = g b i c := hrow i (le_refl _)
  unfold headWei
  by_cases ht : t.val ≤ i.val
  · rw [if_pos ht, if_pos ht, headScaled_congr H P f g b i t hi (hrow t ht)]
    congr 1
    apply Finset.sum_congr rfl
    intro k hk
    rw [headScaled_congr H P f g b i k hi (hrow k (Finset.mem_filter.mp hk).2)]
  · rw [if_neg ht, if_neg ht]

/-- C5: causality of `AttentionHead` with dropout at rate 0.  If two inputs
agree everywhere except at a position j strictly after i, then `Head.call`
produces the same output at position i for both. -/
theorem c5_head_causality (cfg : HeadCfg) (P : HeadParams) (tr : Bool)
    (keep : ℕ → ℕ → ℕ → Bool) (B T C : ℕ) (f g : Fin B → Fin T → Fin C → ℝ)
    (i j : Fin T) (hij : i < j)
    (hagree : ∀ t : Fin T, t ≠ j → ∀ b c, f b t c = g b t c)
    (hrate : cfg.dropout = 0) (hT : T = cfg.seq_len) :
    headCallT cfg P tr keep ⟨B, T, C, f⟩ =
      some (headBody cfg P tr keep ⟨B, T, C, f⟩) ∧
    ∀ (b : Fin B) (d : Fin cfg.head_size),
      (headBody cfg P tr keep ⟨B, T, C, f⟩).val b i d =
      (headBody cfg P tr keep ⟨B, T, C, g⟩).val b i d := by
  refine ⟨by simp [headCallT, hT], ?_⟩
  intro b d
  have hrow : ∀ t : Fin T, t.val ≤ i.val → ∀ c, f b t c = g b t c := by
    intro t ht c
    refine hagree t (fun he => ?_) b c
    rw [he] at ht
    exact absurd (Fin.lt_def.mp hij) (by omega)
  simp only [headBody]
  apply Finset.sum_congr rfl
  intro t _
  simp only [hrate, dropVal_zero]
  by_cases ht : t.val ≤ i.val
  · rw [headWei_congr cfg.head_size P f g b i hrow t,
      denseT_val_congr cfg.head_size P.Wv f g b t (hrow t ht) d]
  · have h0f : headWei cfg.head_size P ⟨B, T, C, f⟩ b i t = 0 := by
      unfold headWei
      rw [if_neg ht]
    have h0g : headWei cfg.head_size P ⟨B, T, C, g⟩ b i t = 0 := by
      unfold headWei
      rw [if_neg ht]
    rw [h0f, h0g, zero_mul, zero_mul]

/-- Concrete all-zero input function of shape (1, 2, 1). -/
abbrev zfun : Fin 1 → Fin 2 → Fin 1 → ℝ := fun _ _ _ => 0

/-- Witness for C5 at i = 0, j = 1 on a concrete (1, 2, 1) input. -/
theorem c5_head_causality_witness :
    ((0 : Fin 2) < (1 : Fin 2)) ∧
    (headCallT ⟨1, 2, 0⟩ P0H false keep3 ⟨1, 2, 1, zfun⟩ =
      some (headBody ⟨1, 2, 0⟩ P0H false keep3 ⟨1, 2, 1, zfun⟩) ∧
    ∀ (b : Fin 1) (d : Fin (⟨1, 2, 0⟩ : HeadCfg).head_size),
      (headBody ⟨1, 2, 0⟩ P0H false keep3 ⟨1, 2, 1, zfun⟩).val b (0 : Fin 2) d =
      (headBody ⟨1, 2, 0⟩ P0H false keep3 ⟨1, 2, 1, zfun⟩).val b (0 : Fin 2) d) :=
  ⟨by decide,
    c5_head_causality ⟨1, 2, 0⟩ P0H false keep3 1 2 1 zfun zfun 0 1 (by decide)
      (fun _ _ _ _ => rfl) rfl rfl⟩

/-- Head parameters with indicator query and key maps: the raw score at
every position pair is exactly 1 on the input `xScale`. -/
abbrev Pscale : HeadParams :=
  ⟨fun c d => if c = 0 ∧ d = 0 then 1 else 0,
   fun c d => if c = 0 ∧ d = 0 then 1 else 0,
   fun _ _ => 0⟩

/-- Concrete (1, 2, 5) input whose channel 0 is 1 and other channels are 0. -/
abbrev xScale : Tensor3 := ⟨1, 2, 5, fun _ _ c => if c.val = 0 then 1 else 0⟩

/-- C2: evaluation of the scaling bug.  For the script head (head size 3 on
5 input channels), the code divides the raw score 1 by the square root of
the module-level global channel count 5, not by the square root of the head
size 3 as the claim states; the two scalings disagree. -/
theorem c2_head_scales_by_global_channel_count :
    gC = 5 ∧
    headScaled 3 Pscale xScale 0 0 0 = 1 / Real.sqrt 5 ∧
    headScaledSpec 3 Pscale xScale 0 0 0 = 1 / Real.sqrt 3 ∧
    headScaled 3 Pscale xScale 0 0 0 ≠ headScaledSpec 3 Pscale xScale 0 0 0 := by
  have hscore : headScores 3 Pscale xScale 0 0 0 = 1 := by
    have e3 : ((3 : Fin 5) : ℕ) = 3 := rfl
    have e4 : ((4 : Fin 5) : ℕ) = 4 := rfl
    have f1 : ((1 : Fin 3) : ℕ) = 1 := rfl
    have f2 : ((2 : Fin 3) : ℕ) = 2 := rfl
    simp [headScores, denseT, Pscale, xScale, Fin.sum_univ_five, Fin.sum_univ_three,
      e3, e4, f1, f2]
  have h1 : headScaled 3 Pscale xScale 0 0 0 = 1 / Real.sqrt 5 := by
    unfold headScaled
    rw [hscore]
    norm_num [gC]
  have h2 : headScaledSpec 3 Pscale xScale 0 0 0 = 1 / Real.sqrt 3 := by
    unfold headScaledSpec
    rw [hscore]
    norm_num
  have hne : (1 : ℝ) / Real.sqrt 5 ≠ 1 / Real.sqrt 3 := by
    have h3 : (0 : ℝ) < Real.sqrt 3 := Real.sqrt_pos.mpr (by norm_num)
    have h35 : Real.sqrt 3 < Real.sqrt 5 := Real.sqrt_lt_sqrt (by norm_num) (by norm_num)
    exact ne_of_lt (one_div_lt_one_div_of_lt h3 h35)
  exact ⟨rfl, h1, h2, by rw [h1, h2]; exact hne⟩

/-- Multi-head attention parameters with zero query and key maps, identity
value map and identity output map: the attention weights are uniform and
the output at each position is the average of the input values over ALL
positions. -/
abbrev PmhaCE : MHAParams :=
  ⟨fun _ _ _ => 0, fun _ _ _ => 0, fun _ _ _ => 1,
   fun _ _ => 0, fun _ _ => 0, fun _ _ => 0,
   fun _ _ _ => 1, fun _ => 0⟩

/-- Concrete keep-everything dropout draw for multi-head attention. -/
abbrev keep4 : ℕ → ℕ → ℕ → ℕ → Bool := fun _ _ _ _ => true

/-- Concrete all-zero (1, 2, 1) input. -/
abbrev xCA : Tensor3 := ⟨1, 2, 1, fun _ _ _ => 0⟩

/-- Concrete (1, 2, 1) input equal to `xCA` at position 0 but changed at
the later position 1. -/
abbrev xCB : Tensor3 := ⟨1, 2, 1, fun _ t _ => if t.val = 0 then 0 else 2⟩

/-- C1: refutation on a concrete input.  The inputs `xCA` and `xCB` agree
at position 0 and differ only at the later position 1, yet the
multi-head self-attention layer (which passes `attention_mask=None`)
produces different outputs at position 0: changing a future position leaks
into the past, so no causal masking is applied. -/
theorem c1_mha_unmasked_leaks :
    xCA.entry 0 0 0 = xCB.entry 0 0 0 ∧
    (mhaCallT 1 1 0 PmhaCE false keep4 xCA).entry 0 0 0 ≠
      (mhaCallT 1 1 0 PmhaCE false keep4 xCB).entry 0 0 0 := by
  have hsA : ∀ (h : ℕ) (b : Fin xCA.B) (i j : Fin xCA.T),
      mhaScores 1 PmhaCE h xCA b i j = 0 := by
    intro h b i j
    simp [mhaScores, mhaQ, mhaK, PmhaCE]
  have hsB : ∀ (h : ℕ) (b : Fin xCB.B) (i j : Fin xCB.T),
      mhaScores 1 PmhaCE h xCB b i j = 0 := by
    intro h b i j
    simp [mhaScores, mhaQ, mhaK, PmhaCE]
  have hwA : ∀ (h : ℕ) (b : Fin xCA.B) (i j : Fin xCA.T),
      mhaWei 1 PmhaCE h xCA b i j = 1 / 2 := by
    intro h b i j
    simp [mhaWei, hsA, Real.exp_zero, Finset.sum_const, Finset.card_univ]
  have hwB : ∀ (h : ℕ) (b : Fin xCB.B) (i j : Fin xCB.T),
      mhaWei 1 PmhaCE h xCB b i j = 1 / 2 := by
    intro h b i j
    simp [mhaWei, hsB, Real.exp_zero, Finset.sum_const, Finset.card_univ]
  have hA : (mhaCallT 1 1 0 PmhaCE false keep4 xCA).entry 0 0 0 = 0 := by
    simp [Tensor3.entry, mhaCallT, dropVal, hwA, mhaV, PmhaCE, xCA, Fin.sum_univ_two]
  have hB : (mhaCallT 1 1 0 PmhaCE false keep4 xCB).entry 0 0 0 = 1 := by
    simp [Tensor3.entry, mhaCallT, dropVal, hwB, mhaV, PmhaCE, xCB, Fin.sum_univ_two]
  refine ⟨by norm_num [Tensor3.entry], ?_⟩
  rw [hA, hB]
  norm_num

/-- Concrete feed-forward parameters (values irrelevant for shapes). -/
abbrev Pff0 : FFParams :=
  ⟨fun _ => 1, fun _ => 0, fun _ _ => 0, fun _ => 0, fun _ _ => 0, fun _ => 0⟩

/-- Concrete all-zero input of shape (1, 1, 5). -/
abbrev x115 : Tensor3 := ⟨1, 1, 5, fun _ _ _ => 0⟩

/-- C3 counterexample: on an input with n_embd = 5 channels, the hidden
tensor of `FeedForward` (after `Conv1D(filters=4, kernel_size=1,
activation=relu)`) has shape (1, 1, 4), not (1, 1, 4 * 5): the hidden width
is the literal 4, not 4 times the embedding width. -/
theorem c3_ffwd_hidden_width_counterexample :
    (ffwdHidden Pff0 x115).shape = (1, 1, 4) ∧
    (ffwdHidden Pff0 x115).shape ≠ (1, 1, 4 * 5) := by
  refine ⟨rfl, ?_⟩
  rw [show (ffwdHidden Pff0 x115).shape = (1, 1, 4) from rfl]
  decide

/-- C3 amended: `FeedForward` maps the channel dimension to the fixed
hidden width 4 (whatever n_embd is) through a learned affine map followed
by the rectified-linear activation, projects back to n_embd channels, and
for every input with n_embd channels its output shape equals its input
shape. -/
theorem c3_ffwd_fixed_hidden_and_shape (n_embd : ℕ) (rate : ℝ) (P : FFParams)
    (tr : Bool) (keep : ℕ → ℕ → ℕ → Bool) (x : Tensor3) :
    (ffwdHidden P x).C = 4 ∧
    (∀ (b : Fin x.B) (t : Fin x.T) (u : Fin 4),
      (ffwdHidden P x).val b t u =
        relu (P.b1 u + ∑ c : Fin x.C,
          (layerNormT (1e-6) P.lnG P.lnB x).val b t c * P.K1 c u)) ∧
    (x.C = n_embd → (ffwdT n_embd rate P tr keep x).shape = x.shape) := by
  refine ⟨rfl, fun b t u => rfl, fun hC => ?_⟩
  simp only [ffwdT, dropT, denseBT, ffwdHidden, layerNormT, Tensor3.shape, hC]

/-- Witness for C3 (amended part) at n_embd = 5 on a concrete (1, 1, 5)
input. -/
theorem c3_ffwd_fixed_hidden_and_shape_witness :
    x115.C = 5 ∧ (ffwdT 5 0 Pff0 false keep3 x115).shape = x115.shape :=
  ⟨rfl, (c3_ffwd_fixed_hidden_and_shape 5 0 Pff0 false keep3 x115).2.2 rfl⟩

lemma blockInit_mul {e h : ℕ} {d : ℝ} {cfg : BlockCfg}
    (hinit : blockInit e h d = some cfg) :
    cfg.n_head * cfg.head_size = cfg.n_embd := by
  unfold blockInit at hinit
  split_ifs at hinit with h0 hmod
  obtain rfl := Option.some.inj hinit
  exact Nat.mul_div_cancel' (Nat.dvd_of_mod_eq_zero hmod)

lemma blockCallT_some (cfg : BlockCfg) (P : BlockParams) (tr : Bool)
    (kA : ℕ → ℕ → ℕ → ℕ → Bool) (kF : ℕ → ℕ → ℕ → Bool) (x : Tensor3)
    (hsize : cfg.n_head * cfg.head_size = cfg.n_embd) (hC : x.C = cfg.n_embd) :
    ∃ x1 y,
      addT x (blockSaT cfg P.sa tr kA (layerNormT (1e-5) P.g1 P.b1 x)) = some x1 ∧
      x1.B = x.B ∧ x1.T = x.T ∧ x1.C = x.C ∧
      addT x1 (ffwdT cfg.n_embd cfg.dropout P.ff tr kF
        (layerNormT (1e-5) P.g2 P.b2 x1)) = some y ∧
      y.B = x.B ∧ y.T = x.T ∧ y.C = x.C ∧
      blockCallT cfg P tr kA kF x = some y := by
  obtain ⟨x1, e1, hB1, hT1, hC1⟩ :=
    addT_some_of_shape x (blockSaT cfg P.sa tr kA (layerNormT (1e-5) P.g1 P.b1 x))
      rfl rfl (hsize.trans hC.symm)
  obtain ⟨y, e2, hB2, hT2, hC2⟩ :=
    addT_some_of_shape x1 (ffwdT cfg.n_embd cfg.dropout P.ff tr kF
      (layerNormT (1e-5) P.g2 P.b2 x1)) rfl rfl ((hC1.trans hC).symm)
  refine ⟨x1, y, e1, hB1, hT1, hC1, e2, hB2.trans hB1, hT2.trans hT1,
    hC2.trans hC1, ?_⟩
  unfold blockCallT
  rw [e1]
  simp only [Option.some_bind]
  exact e2

/-- C6: for every block configuration produced by a successful
`Block.__init__` and every input whose channel count matches the embedding
width, `Block.call` computes `x1 = x + sa(ln1(x))` with the first
normalisation parameters, then `y = x1 + ffwd(ln2(x1))` with the second,
independent normalisation parameters, and the output shape equals the input
shape. -/
theorem c6_block_prenorm_residual (e h : ℕ) (d : ℝ) (cfg : BlockCfg)
    (hinit : blockInit e h d = some cfg) (P : BlockParams) (tr : Bool)
    (kA : ℕ → ℕ → ℕ → ℕ → Bool) (kF : ℕ → ℕ → ℕ → Bool) (x : Tensor3)
    (hC : x.C = cfg.n_embd) :
    ∃ x1 y,
      addT x (blockSaT cfg P.sa tr kA (layerNormT (1e-5) P.g1 P.b1 x)) = some x1 ∧
      addT x1 (ffwdT cfg.n_embd cfg.dropout P.ff tr kF
        (layerNormT (1e-5) P.g2 P.b2 x1)) = some y ∧
      blockCallT cfg P tr kA kF x = some y ∧
      y.shape = x.shape := by
  obtain ⟨x1, y, e1, hB1, hT1, hC1, e2, hBy, hTy, hCy, ecall⟩ :=
    blockCallT_some cfg P tr kA kF x (blockInit_mul hinit) hC
  exact ⟨x1, y, e1, e2, ecall, by simp [Tensor3.shape, hBy, hTy, hCy]⟩

/-- Zero-valued multi-head attention parameters. -/
abbrev Pmha0 : MHAParams :=
  ⟨fun _ _ _ => 0, fun _ _ _ => 0, fun _ _ _ => 0,
   fun _ _ => 0, fun _ _ => 0, fun _ _ => 0,
   fun _ _ _ => 0, fun _ => 0⟩

/-- Zero-valued block parameters. -/
abbrev PB0 : BlockParams :=
  ⟨Pmha0, Pff0, fun _ => 1, fun _ => 0, fun _ => 1, fun _ => 0⟩

/-- Witness for C6 at the concrete block configuration n_embd = 1,
n_head = 1 on a concrete (1, 2, 1) input. -/
theorem c6_block_prenorm_residual_witness :
    blockInit 1 1 0 = some ⟨1, 1, 1, 0⟩ ∧
    xW.C = (⟨1, 1, 1, 0⟩ : BlockCfg).n_embd ∧
    ∃ x1 y,
      addT xW (blockSaT ⟨1, 1, 1, 0⟩ PB0.sa false keep4
        (layerNormT (1e-5) PB0.g1 PB0.b1 xW)) = some x1 ∧
      addT x1 (ffwdT (⟨1, 1, 1, 0⟩ : BlockCfg).n_embd
        (⟨1, 1, 1, 0⟩ : BlockCfg).dropout PB0.ff false keep3
        (layerNormT (1e-5) PB0.g2 PB0.b2 x1)) = some y ∧
      blockCallT ⟨1, 1, 1, 0⟩ PB0 false keep4 keep3 xW = some y ∧
      y.shape = xW.shape :=
  ⟨rfl, rfl,
    c6_block_prenorm_residual 1 1 0 ⟨1, 1, 1, 0⟩ rfl PB0 false keep4 keep3 xW rfl⟩

lemma add32_some_of_shape (x : Tensor3) (p : Tensor2) (hT : p.T = x.T)
    (hC : p.C = x.C) :
    ∃ z, add32 x p = some z ∧ z.B = x.B ∧ z.T = x.T ∧ z.C = x.C ∧
      ∀ (b : Fin x.B) (t : Fin x.T) (c : Fin x.C),
        z.entry b t c = x.entry b t c + p.entry t c := by
  unfold add32
  rw [hT, hC, bdim_self, bdim_self]
  refine ⟨_, rfl, rfl, rfl, rfl, ?_⟩
  intro b t c
  simp [Tensor3.entry, Tensor2.entry, Fin.is_lt, Fin.eta,
    pick_eq_of_lt t.isLt, pick_eq_of_lt c.isLt]

lemma runBlocks_some (cfg : BlockCfg) (Ps : ℕ → BlockParams) (tr : Bool)
    (kA : ℕ → ℕ → ℕ → ℕ → ℕ → Bool) (kF : ℕ → ℕ → ℕ → ℕ → Bool)
    (hsize : cfg.n_head * cfg.head_size = cfg.n_embd) :
    ∀ (n : ℕ) (x : Tensor3), x.C = cfg.n_embd →
      ∃ z, runBlocks cfg Ps tr kA kF n x = some z ∧
        z.B = x.B ∧ z.T = x.T ∧ z.C = x.C := by
  intro n
  induction n with
  | zero => exact fun x _ => ⟨x, rfl, rfl, rfl, rfl⟩
  | succ n ih =>
      intro x hC
      obtain ⟨x1, y, _, _, _, _, _, hBy, hTy, hCy, ecall⟩ :=
        blockCallT_some cfg (Ps n) tr (kA n) (kF n) x hsize hC
      obtain ⟨z, ez, hBz, hTz, hCz⟩ := ih y (hCy.trans hC)
      refine ⟨z, ?_, hBz.trans hBy, hTz.trans hTy, hCz.trans hCy⟩
      simp only [runBlocks]
      rw [ecall]
      simp only [Option.some_bind]
      exact ez

/-- Concrete transformer configuration whose build-time sequence length is
3 (vocabulary 1, embedding width 1, one head, one block, dropout 0). -/
abbrev cfgCE : TLCfg := ⟨1, 1, 1, 1, 0, 3⟩

/-- Concrete all-zero transformer parameters. -/
abbrev PTL0 : TLParams :=
  ⟨fun _ _ => 0, fun _ _ => 0, fun _ => PB0, fun _ => 1, fun _ => 0,
   fun _ _ => 0, fun _ => 0⟩

/-- Concrete keep-everything dropout draws for a stack of blocks. -/
abbrev kA5 : ℕ → ℕ → ℕ → ℕ → ℕ → Bool := fun _ _ _ _ _ => true

/-- Concrete keep-everything dropout draws for the feed-forward layers of a
stack of blocks. -/
abbrev kF4 : ℕ → ℕ → ℕ → ℕ → Bool := fun _ _ _ _ => true

/-- Concrete token batch of shape (1, 2), all tokens 0. -/
abbrev idxCE : ITensor2 := ⟨1, 2, fun _ _ => 0⟩

/-- C9 counterexample: with a build-time position-table size of 3, a call
with sequence length 2 — strictly within the claimed limit — does not
return logits: the addition of the (1, 2, 1) token embeddings and the
(3, 1) position embeddings is a fatal broadcast error, modelled as `none`. -/
theorem c9_transformer_counterexample :
    idxCE.T < cfgCE.block_size ∧
    transformerCallT cfgCE PTL0 false kA5 kF4 idxCE = none := by
  refine ⟨by norm_num, ?_⟩
  simp [transformerCallT, add32, bdim, tokEmbT, posEmbT]

/-- C9 amended: `TransformerLayer.call` fails whenever the input sequence
length differs from the build-time size of the position table (longer or
shorter, apart from the degenerate broadcast cases where one of the two is
1); when the sequence length equals the build-time size, it adds the
position embeddings indexed 0 .. T-1 to the token embeddings (broadcast
across the batch) and returns raw logits of shape (B, T, vocab_size), with
no final softmax. -/
theorem c9_transformer_length_behavior (cfg : TLCfg) (P : TLParams) (tr : Bool)
    (kA : ℕ → ℕ → ℕ → ℕ → ℕ → Bool) (kF : ℕ → ℕ → ℕ → ℕ → Bool)
    (idx : ITensor2) :
    (idx.T ≠ cfg.block_size → idx.T ≠ 1 → cfg.block_size ≠ 1 →
      transformerCallT cfg P tr kA kF idx = none) ∧
    (idx.T = cfg.block_size → 0 < cfg.n_head → cfg.n_head ∣ cfg.n_embd →
      ∃ x0, add32 (tokEmbT cfg P idx) (posEmbT cfg P) = some x0 ∧
        (∀ (b : Fin idx.B) (t : Fin idx.T) (c : Fin cfg.n_embd),
          x0.entry b t c = P.tok (idx.val b t) c + P.pos t c) ∧
        ∃ y, transformerCallT cfg P tr kA kF idx = some y ∧
          y.shape = (idx.B, idx.T, cfg.vocab_size)) := by
  constructor
  · intro hn h1 hb
    have hb0 : bdim idx.T cfg.block_size = none := by
      unfold bdim
      rw [if_neg hn, if_neg h1, if_neg hb]
    unfold transformerCallT add32
    simp only [tokEmbT, posEmbT]
    rw [hb0]
    rfl
  · intro hT hh hdvd
    have hsize : (tlBlockCfg cfg).n_head * (tlBlockCfg cfg).head_size =
        (tlBlockCfg cfg).n_embd := Nat.mul_div_cancel' hdvd
    obtain ⟨x0, e0, hB0, hT0, hC0, hval⟩ :=
      add32_some_of_shape (tokEmbT cfg P idx) (posEmbT cfg P) hT.symm rfl
    have hval2 : ∀ (b : Fin idx.B) (t : Fin idx.T) (c : Fin cfg.n_embd),
        x0.entry b t c = P.tok (idx.val b t) c + P.pos t c := by
      intro b t c
      have htlt : (t : ℕ) < cfg.block_size := hT ▸ t.isLt
      rw [hval b t c]
      simp [Tensor3.entry, Tensor2.entry, tokEmbT, posEmbT, Fin.is_lt, Fin.eta,
        htlt]
    obtain ⟨z, ez, hBz, hTz, hCz⟩ :=
      runBlocks_some (tlBlockCfg cfg) P.blocks tr kA kF hsize cfg.n_block x0 hC0
    refine ⟨x0, e0, hval2,
      denseBT cfg.vocab_size P.Wlm P.blm id (layerNormT (1e-5) P.gF P.bF z),
      ?_, ?_⟩
    · unfold transformerCallT
      rw [e0]
      simp only [Option.some_bind]
      rw [ez]
      rfl
    · have h1 : z.B = idx.B := hBz.trans hB0
      have h2 : z.T = idx.T := hTz.trans hT0
      simp [Tensor3.shape, denseBT, layerNormT, h1, h2]

/-- Concrete transformer configuration whose build-time sequence length is
2, matching `idxCE`. -/
abbrev cfgW : TLCfg := ⟨1, 1, 1, 1, 0, 2⟩

/-- Witness for C9 (amended, success direction) at sequence length 2 equal
to the build-time size 2. -/
theorem c9_transformer_length_behavior_witness :
    idxCE.T = cfgW.block_size ∧ 0 < cfgW.n_head ∧ cfgW.n_head ∣ cfgW.n_embd ∧
    ∃ x0, add32 (tokEmbT cfgW PTL0 idxCE) (posEmbT cfgW PTL0) = some x0 ∧
      (∀ (b : Fin idxCE.B) (t : Fin idxCE.T) (c : Fin cfgW.n_embd),
        x0.entry b t c = PTL0.tok (idxCE.val b t) c + PTL0.pos t c) ∧
      ∃ y, transformerCallT cfgW PTL0 false kA5 kF4 idxCE = some y ∧
        y.shape = (idxCE.B, idxCE.T, cfgW.vocab_size) :=
  ⟨rfl, by norm_num, ⟨1, rfl⟩,
    (c9_transformer_length_behavior cfgW PTL0 false kA5 kF4 idxCE).2
      rfl (by norm_num) ⟨1, rfl⟩⟩

end GPT
